import Mathlib

/-!
Verification of the Atlas3 host-side driver specification.

The repository ships only the usage example `examples/basic_usage.py`; the
driver core it exercises (Frame Codec, Transport Session, Command Registry,
Status Decoders) is not part of the visible sources.  Every definition below
whose doc comment starts with "Modelled from the spec:" is therefore a model
of that missing module, built faithfully from the specification's words.
-/

namespace Atlas3

/-- Modelled from the spec: the two transport-level failure kinds the missing
Transport Session distinguishes when retries are exhausted (timeout vs
corruption). -/
inductive TransportFailureKind where
  | timeout
  | corruption
deriving Repr, DecidableEq

/-- Modelled from the spec: the error taxonomy of the missing driver core
(ValidationError, FrameError carrying the raw bytes, TransportError,
DecodeError, ConfigurationError). -/
inductive Atlas3Error where
  | validationError (msg : String)
  | frameError (raw : List Nat)
  | transportError (kind : TransportFailureKind)
  | decodeError (msg : String)
  | configurationError (code : Nat)
deriving Repr, DecidableEq

/-- Modelled from the spec: a decoded wire frame of the missing Frame Codec:
opcode, status code and payload bytes. -/
structure Frame where
  opcode : Nat
  status : Nat
  payload : List Nat
deriving Repr, DecidableEq

/-- Modelled from the spec: the pluggable checksum strategy of the missing
Frame Codec, taken here as the byte sum modulo 256. -/
def checksum (bs : List Nat) : Nat :=
  bs.foldl (fun a b => a + b) 0 % 256

/-- Modelled from the spec: the missing Frame Codec's frame layout with an
explicit status byte: fixed header (opcode, status, payload length), raw
payload bytes, then the checksum byte. -/
def encodeFrame (opcode status : Nat) (params : List Nat) : List Nat :=
  let body := opcode % 256 :: status % 256 :: params.length % 256 :: params.map (· % 256)
  body ++ [checksum body]

/-- Modelled from the spec: the missing Frame Codec's
`encode(opcode, parameters)`; request frames carry status byte 0. -/
def encode (opcode : Nat) (params : List Nat) : List Nat :=
  encodeFrame opcode 0 params

/-- Modelled from the spec: the missing Frame Codec's `decode`: validates
minimum length, declared-vs-actual payload length and the checksum; on any
mismatch fails with a FrameError carrying the raw bytes. -/
def decode (bs : List Nat) : Except Atlas3Error Frame :=
  match bs with
  | op :: st :: len :: rest =>
    if rest = [] then .error (.frameError (op :: st :: len :: rest))
    else if rest.dropLast.length ≠ len then .error (.frameError (op :: st :: len :: rest))
    else if checksum (op :: st :: len :: rest.dropLast) ≠ rest.getLastD 0 then
      .error (.frameError (op :: st :: len :: rest))
    else .ok ⟨op, st, rest.dropLast⟩
  | _ => .error (.frameError bs)

/-- Modelled from the spec: one scripted outcome of a transport read attempt,
used to simulate the serial peer (timeout, or a raw response frame that may
be corrupted). -/
inductive Response where
  | timeout
  | frameBytes (bs : List Nat)
deriving Repr, DecidableEq

/-- Modelled from the spec: a single send/receive attempt of the missing
Transport Session: a timeout or a frame that fails to decode counts as a
transport-level failure of the matching kind. -/
def attemptOnce (resp : Response) : Except TransportFailureKind Frame :=
  match resp with
  | .timeout => .error .timeout
  | .frameBytes bs =>
    match decode bs with
    | .ok f => .ok f
    | .error _ => .error .corruption

/-- Modelled from the spec: the retry loop of the missing Transport Session.
The first argument of the recursion is the number of retries still allowed;
the scripted peer supplies one `Response` per attempt (a missing script entry
reads as a timeout).  Returns the list of request byte strings written to the
channel, in order, together with the final result. -/
def runAttempts (request : List Nat) :
    Nat → List Response → List (List Nat) × Except Atlas3Error Frame
  | 0, script =>
    match attemptOnce (script.headD .timeout) with
    | .ok f => ([request], .ok f)
    | .error k => ([request], .error (.transportError k))
  | r + 1, script =>
    match attemptOnce (script.headD .timeout) with
    | .ok f => ([request], .ok f)
    | .error _ =>
      let rest := runAttempts request r script.tail
      (request :: rest.1, rest.2)

/-- Modelled from the spec: the missing Transport Session's
`execute(request_frame)`: sends the request, awaits a response, and retries up
to `retryLimit` additional times on timeout or corrupted frame, with no
request mutation between attempts. -/
def execute (retryLimit : Nat) (request : List Nat) (script : List Response) :
    List (List Nat) × Except Atlas3Error Frame :=
  runAttempts request retryLimit script

/-- Modelled from the spec: the fixed per-frame register capacity of the wire
protocol (the pagination window for register/flash reads). -/
def frameCapacity : Nat := 64

/-- Modelled from the spec: the paginated register/flash read loop of the
missing Command Registry.  `device` stands for the peer's register file.
Returns the list of issued request frames (one encoded frame per round-trip,
each reading at most `frameCapacity` registers) and the merged dump entries
in ascending address order. -/
def readPaged (device : Nat → Nat) (addr count : Nat) :
    List (List Nat) × List (Nat × Nat) :=
  if count = 0 then ([], [])
  else
    (encode 96 [addr / 256 % 256, addr % 256, min count frameCapacity] ::
        (readPaged device (addr + min count frameCapacity)
          (count - min count frameCapacity)).1,
      (List.range (min count frameCapacity)).map
          (fun i => (addr + i, device (addr + i))) ++
        (readPaged device (addr + min count frameCapacity)
          (count - min count frameCapacity)).2)
termination_by count
decreasing_by
  all_goals unfold frameCapacity
  all_goals omega

/-- Modelled from the spec: the missing `read_flash(address, count)` windowed
over the per-frame register capacity. -/
def read_flash (device : Nat → Nat) (address count : Nat) :
    List (List Nat) × List (Nat × Nat) :=
  readPaged device address count

/-- Modelled from the spec: the number of registers a per-port register dump
covers. -/
def portRegisterCount : Nat := 256

/-- Modelled from the spec: the missing `read_port_registers(port)`, a paged
register dump over the port's register window. -/
def read_port_registers (device : Nat → Nat) (port : Nat) :
    List (List Nat) × List (Nat × Nat) :=
  readPaged device (port * 4096) portRegisterCount

/-- Modelled from the spec: one per-port error counter record of the missing
ErrorCounterReport decoder (bad TLP, bad DLLP, flit error); `has_errors` is
computed by the decoder. -/
structure PortErrorCounters where
  port_number : Nat
  bad_tlp : Nat
  bad_dllp : Nat
  flit_error : Nat
  has_errors : Bool
deriving Repr, DecidableEq

/-- Modelled from the spec: the ErrorCounterReport entity (ordered per-port
counters plus the aggregated `total_errors`). -/
structure ErrorCounterReport where
  counters : List PortErrorCounters
  total_errors : Nat
deriving Repr, DecidableEq

/-- Modelled from the spec: splits the error-counter payload into 4-byte
per-port records (port number, bad TLP, bad DLLP, flit error); a truncated
record makes the whole payload undecodable. -/
def decodeCounterEntries : List Nat → Option (List PortErrorCounters)
  | [] => some []
  | p :: t :: d :: f :: rest =>
    (decodeCounterEntries rest).map
      (fun cs => ⟨p, t, d, f, decide (0 < t + d + f)⟩ :: cs)
  | _ => none

/-- Modelled from the spec: the missing `get_error_counters` status decoder;
aggregates `total_errors` with an explicit fold over the decoded records. -/
def decode_error_counters (payload : List Nat) : Except Atlas3Error ErrorCounterReport :=
  match decodeCounterEntries payload with
  | none => .error (.decodeError "error counter payload truncated")
  | some cs =>
    .ok ⟨cs, cs.foldl (fun a c => a + c.bad_tlp + c.bad_dllp + c.flit_error) 0⟩

/-- Modelled from the spec: one per-device result of the missing BistReport
decoder (device name, I2C channel, device address, pass flag). -/
structure BistDeviceResult where
  device_name : String
  channel : Nat
  address : Nat
  is_ok : Bool
deriving Repr, DecidableEq

/-- Modelled from the spec: the BistReport entity; `all_passed` is computed
by the decoder. -/
structure BistReport where
  devices : List BistDeviceResult
  all_passed : Bool
deriving Repr, DecidableEq

/-- Modelled from the spec: splits the BIST payload into 3-byte per-device
records (channel, device address, pass byte); a nonzero pass byte means the
device passed. -/
def decodeBistEntries : List Nat → Option (List BistDeviceResult)
  | [] => some []
  | ch :: ad :: pb :: rest =>
    (decodeBistEntries rest).map
      (fun ds => ⟨"i2c-" ++ Nat.repr ad, ch, ad, decide (pb ≠ 0)⟩ :: ds)
  | _ => none

/-- Modelled from the spec: the missing `run_bist` status decoder;
`all_passed` is the logical AND over all device results, computed with an
explicit fold. -/
def decode_bist (payload : List Nat) : Except Atlas3Error BistReport :=
  match decodeBistEntries payload with
  | none => .error (.decodeError "bist payload truncated")
  | some ds =>
    .ok ⟨ds, ds.foldl (fun a d => a && d.is_ok) true⟩

/-- Modelled from the spec: the per-port link status enumeration with an
explicit Unknown(raw) arm for forward firmware compatibility. -/
inductive LinkStatus where
  | idle
  | linked
  | error
  | unknown (raw : Nat)
deriving Repr, DecidableEq

/-- Modelled from the spec: the negotiated speed enumeration Gen1..Gen6 with
an explicit Unknown(raw) arm. -/
inductive LinkSpeed where
  | gen1
  | gen2
  | gen3
  | gen4
  | gen5
  | gen6
  | unknown (raw : Nat)
deriving Repr, DecidableEq

/-- Modelled from the spec: the OperationMode enumeration with an explicit
Unknown(raw) arm. -/
inductive OperationMode where
  | mode1
  | mode2
  | mode3
  | mode4
  | unknown (raw : Nat)
deriving Repr, DecidableEq

/-- Modelled from the spec: decoder of the link-status byte; raw values
outside the declared range decode to the Unknown sentinel, never an error. -/
def decodeLinkStatus (raw : Nat) : LinkStatus :=
  if raw = 0 then .idle
  else if raw = 1 then .linked
  else if raw = 2 then .error
  else .unknown raw

/-- Modelled from the spec: decoder of the negotiated-speed byte; raw values
outside 1..6 decode to the Unknown sentinel, never an error. -/
def decodeLinkSpeed (raw : Nat) : LinkSpeed :=
  if raw = 1 then .gen1
  else if raw = 2 then .gen2
  else if raw = 3 then .gen3
  else if raw = 4 then .gen4
  else if raw = 5 then .gen5
  else if raw = 6 then .gen6
  else .unknown raw

/-- Modelled from the spec: decoder of the operation-mode byte; raw values
outside 1..4 decode to the Unknown sentinel, never an error. -/
def decodeOperationMode (raw : Nat) : OperationMode :=
  if raw = 1 then .mode1
  else if raw = 2 then .mode2
  else if raw = 3 then .mode3
  else if raw = 4 then .mode4
  else .unknown raw

/-- Modelled from the spec: the Port entity; an unlinked slot carries speed
and width absent (`none`) rather than zero. -/
structure Port where
  port_number : Nat
  status : LinkStatus
  negotiated_speed : Option LinkSpeed
  negotiated_width : Option Nat
deriving Repr, DecidableEq

/-- Modelled from the spec: `is_linked` is derived from the decoded link
status. -/
def Port.is_linked (p : Port) : Bool :=
  match p.status with
  | .linked => true
  | _ => false

/-- Modelled from the spec: the PortStatusReport entity: chip version plus
the four fixed port categories, each an ordered sequence of Port. -/
structure PortStatusReport where
  chip_version : Nat
  upstream_ports : List Port
  ext_mcio_ports : List Port
  int_mcio_ports : List Port
  straddle_ports : List Port
deriving Repr, DecidableEq

/-- Modelled from the spec: decoder of one 4-byte port slot (port number,
status byte, speed byte, width byte); a slot whose status byte does not
report a link yields speed and width absent, distinguishing no-link from a
zero-valued generation. -/
def decodePortSlot (pn st sp w : Nat) : Port :=
  if st = 1 then
    ⟨pn, decodeLinkStatus st, some (decodeLinkSpeed sp), some w⟩
  else
    ⟨pn, decodeLinkStatus st, none, none⟩

/-- Modelled from the spec: the fixed port-status payload length: one chip
version byte plus eleven 4-byte port slots (1 upstream, 4 external MCIO,
4 internal MCIO, 2 straddle). -/
def portStatusPayloadLen : Nat := 45

/-- Modelled from the spec: the missing `get_port_status` status decoder;
decodes every port slot independently and groups the slots into the four
fixed categories. -/
def decode_port_status (payload : List Nat) : Except Atlas3Error PortStatusReport :=
  if payload.length ≠ portStatusPayloadLen then
    .error (.decodeError "port status payload length mismatch")
  else
    let ports := (List.range 11).map (fun i =>
      decodePortSlot (payload.getD (1 + 4 * i) 0) (payload.getD (2 + 4 * i) 0)
        (payload.getD (3 + 4 * i) 0) (payload.getD (4 + 4 * i) 0))
    .ok ⟨payload.getD 0 0, ports.take 1, (ports.drop 1).take 4,
      (ports.drop 5).take 4, ports.drop 9⟩

/-- Modelled from the spec: the Version entity. -/
structure Version where
  company : String
  model : String
  serial_number : Option String
  mcu_version : String
  sbr_version : String
deriving Repr, DecidableEq

/-- Modelled from the spec: raw payload bytes interpreted as text. -/
def bytesToString (bs : List Nat) : String :=
  String.mk (bs.map (fun b => Char.ofNat b))

/-- Modelled from the spec: a dotted major.minor.patch version string. -/
def versionString (a b c : Nat) : String :=
  Nat.repr a ++ "." ++ Nat.repr b ++ "." ++ Nat.repr c

/-- Modelled from the spec: the fixed version payload length: 12 company
bytes, 8 model bytes, a serial-present flag, 8 serial bytes, 3 MCU version
bytes, 3 SBR version bytes. -/
def versionPayloadLen : Nat := 35

/-- Modelled from the spec: the missing `get_version` status decoder; an
absent serial number is reported as `none`, not as an empty string. -/
def decode_version (payload : List Nat) : Except Atlas3Error Version :=
  if payload.length < versionPayloadLen then
    .error (.decodeError "version payload too short")
  else
    .ok
      ⟨bytesToString (payload.take 12),
        bytesToString ((payload.drop 12).take 8),
        if payload.getD 20 0 = 0 then none
          else some (bytesToString ((payload.drop 21).take 8)),
        versionString (payload.getD 29 0) (payload.getD 30 0) (payload.getD 31 0),
        versionString (payload.getD 32 0) (payload.getD 33 0) (payload.getD 34 0)⟩

/-- Modelled from the spec: the I2cResult entity (raw bytes read). -/
structure I2cResult where
  data : List Nat
deriving Repr, DecidableEq

/-- Modelled from the spec: the missing I2C read status decoder: a declared
byte count followed by at least that many data bytes. -/
def decode_i2c_result (payload : List Nat) : Except Atlas3Error I2cResult :=
  match payload with
  | [] => .error (.decodeError "i2c payload empty")
  | n :: rest =>
    if rest.length < n then .error (.decodeError "i2c payload too short")
    else .ok ⟨rest.take n⟩

/-- Modelled from the spec: the target of `set_flit_mode`: all stations or a
specific station identifier. -/
inductive FlitTarget where
  | all
  | station (n : Nat)
deriving Repr, DecidableEq

/-- Modelled from the spec: the fixed station set accepted by
`set_flit_mode`. -/
def validStations : List Nat := [2, 5, 7, 8]

/-- Modelled from the spec: the device's known connector id range (ids 0 to
`connectorCount - 1`). -/
def connectorCount : Nat := 4

/-- Modelled from the spec: the missing `set_flit_mode(target, disable)`
facade operation: the station identifier is validated against the fixed
station set before any transport I/O; the first component of the result is
the list of byte strings written to the channel. -/
def set_flit_mode (tgt : FlitTarget) (disable : Bool) (retryLimit : Nat)
    (script : List Response) : List (List Nat) × Except Atlas3Error Frame :=
  match tgt with
  | .all => execute retryLimit (encode 64 [0, if disable then 1 else 0]) script
  | .station n =>
    if n ∈ validStations then
      execute retryLimit (encode 64 [n, if disable then 1 else 0]) script
    else ([], .error (.validationError "invalid station id"))

/-- Modelled from the spec: the missing `reset_connector(id)` facade
operation: the connector id is validated against the known connector range
before any transport I/O. -/
def reset_connector (id : Nat) (retryLimit : Nat) (script : List Response) :
    List (List Nat) × Except Atlas3Error Frame :=
  if id < connectorCount then execute retryLimit (encode 65 [id]) script
  else ([], .error (.validationError "connector id out of range"))

/-- Modelled from the spec: the missing `i2c_read` facade operation: the
channel selector and the byte count are validated before any transport I/O
(the byte count is an integer so that zero and negative counts can be
rejected). -/
def i2c_read (address connector : Nat) (channel : Char) (readBytes : Int)
    (register : Nat) (retryLimit : Nat) (script : List Response) :
    List (List Nat) × Except Atlas3Error Frame :=
  if channel = 'a' ∨ channel = 'b' then
    if readBytes ≤ 0 then ([], .error (.validationError "byte count must be positive"))
    else if connector < connectorCount then
      execute retryLimit
        (encode 80 [address % 256, connector, if channel = 'a' then 0 else 1,
          readBytes.toNat, register % 256]) script
    else ([], .error (.validationError "connector id out of range"))
  else ([], .error (.validationError "invalid channel selector"))

theorem map_mod_of_lt (l : List Nat) (h : ∀ b ∈ l, b < 256) : l.map (· % 256) = l := by
  induction l with
  | nil => rfl
  | cons a t ih =>
    simp only [List.map_cons]
    rw [Nat.mod_eq_of_lt (h a (List.mem_cons_self a t)),
      ih (fun b hb => h b (List.mem_cons_of_mem a hb))]

theorem encodeFrame_eq_of_bytes (op st : Nat) (params : List Nat)
    (hop : op < 256) (hst : st < 256) (hlen : params.length < 256)
    (hb : ∀ b ∈ params, b < 256) :
    encodeFrame op st params =
      op :: st :: params.length ::
        (params ++ [checksum (op :: st :: params.length :: params)]) := by
  simp [encodeFrame, map_mod_of_lt params hb, Nat.mod_eq_of_lt hop,
    Nat.mod_eq_of_lt hst, Nat.mod_eq_of_lt hlen]

theorem decode_encodeFrame (op st : Nat) (params : List Nat)
    (hop : op < 256) (hst : st < 256) (hlen : params.length < 256)
    (hb : ∀ b ∈ params, b < 256) :
    decode (encodeFrame op st params) = .ok ⟨op, st, params⟩ := by
  rw [encodeFrame_eq_of_bytes op st params hop hst hlen hb]
  have hne : params ++ [checksum (op :: st :: params.length :: params)] ≠ [] :=
    List.append_ne_nil_of_right_ne_nil params (by simp)
  simp [decode, hne, List.dropLast_concat, List.getLastD_concat]

theorem dropLast_cons3 (a b c : Nat) (l : List Nat) (h : l ≠ []) :
    (a :: b :: c :: l).dropLast = a :: b :: c :: l.dropLast := by
  rw [List.dropLast_cons₂, List.dropLast_cons₂, List.dropLast_cons_of_ne_nil h]

theorem getLastD_cons3 (a b c d : Nat) (l : List Nat) (h : l ≠ []) :
    (a :: b :: c :: l).getLastD d = l.getLastD 0 := by
  obtain ⟨x, xs, rfl⟩ := List.exists_cons_of_ne_nil h
  simp only [List.getLastD_cons]

/-- C2: for every command request, applying the Frame Codec's decode to the
bytes produced by encode reproduces the same opcode and the same parameter
bytes bit-for-bit. -/
theorem C2_encode_decode_roundtrip (op : Nat) (params : List Nat)
    (hop : op < 256) (hlen : params.length < 256) (hb : ∀ b ∈ params, b < 256) :
    decode (encode op params) = .ok ⟨op, 0, params⟩ :=
  decode_encodeFrame op 0 params hop (by norm_num) hlen hb

theorem C2_encode_decode_roundtrip_witness :
    decode (encode 5 [1, 2, 3]) = .ok ⟨5, 0, [1, 2, 3]⟩ :=
  C2_encode_decode_roundtrip 5 [1, 2, 3] (by decide) (by decide) (by decide)

/-- C9: every frame accepted by decode satisfies the frame invariant (payload
length equals the declared header length, checksum validates); any rejected
byte sequence is rejected with a FrameError carrying the raw bytes; and a
well-formed frame is accepted whatever its opcode is. -/
theorem C9_frame_invariant :
    (∀ bs f, decode bs = .ok f →
      f.payload.length = bs.getD 2 0 ∧ checksum bs.dropLast = bs.getLastD 0) ∧
    (∀ bs e, decode bs = .error e → e = .frameError bs) ∧
    (∀ op st params, op < 256 → st < 256 → params.length < 256 →
      (∀ b ∈ params, b < 256) →
      decode (encodeFrame op st params) = .ok ⟨op, st, params⟩) := by
  refine ⟨?_, ?_, decode_encodeFrame⟩
  · intro bs f h
    rcases bs with _ | ⟨op, _ | ⟨st, _ | ⟨len, rest⟩⟩⟩
    · simp [decode] at h
    · simp [decode] at h
    · simp [decode] at h
    · by_cases h1 : rest = []
      · simp [decode, h1] at h
      · by_cases h2 : rest.length - 1 = len
        · by_cases h3 : checksum (op :: st :: len :: rest.dropLast) = rest.getLast?.getD 0
          · simp [decode, h1, h2, h3] at h
            subst h
            constructor
            · show rest.dropLast.length = len
              rw [List.length_dropLast]
              exact h2
            · rw [dropLast_cons3 op st len rest h1, getLastD_cons3 op st len 0 rest h1,
                List.getLastD_eq_getLast?]
              exact h3
          · simp [decode, h1, h2, h3] at h
        · simp [decode, h1, h2] at h
  · intro bs e h
    rcases bs with _ | ⟨op, _ | ⟨st, _ | ⟨len, rest⟩⟩⟩
    · simp [decode] at h
      exact h.symm
    · simp [decode] at h
      exact h.symm
    · simp [decode] at h
      exact h.symm
    · by_cases h1 : rest = []
      · simp [decode, h1] at h
        simp [h1, h.symm]
      · by_cases h2 : rest.length - 1 = len
        · by_cases h3 : checksum (op :: st :: len :: rest.dropLast) = rest.getLast?.getD 0
          · simp [decode, h1, h2, h3] at h
          · simp [decode, h1, h2, h3] at h
            exact h.symm
        · simp [decode, h1, h2] at h
          exact h.symm

theorem C9_frame_invariant_witness :
    decode (encodeFrame 7 1 [9]) = .ok ⟨7, 1, [9]⟩ :=
  C9_frame_invariant.2.2 7 1 [9] (by decide) (by decide) (by decide) (by decide)

theorem runAttempts_ok (request : List Nat) (r : Nat) (script : List Response)
    (f : Frame) (h : attemptOnce (script.headD .timeout) = .ok f) :
    runAttempts request r script = ([request], .ok f) := by
  rw [List.headD_eq_head?] at h
  cases r <;> simp [runAttempts, h]

theorem runAttempts_all_timeout (request : List Nat) :
    ∀ (n : Nat) (script : List Response), (∀ r ∈ script, r = Response.timeout) →
      runAttempts request n script =
        (List.replicate (n + 1) request, .error (.transportError .timeout)) := by
  intro n
  induction n with
  | zero =>
    intro script hs
    have hh : script.head?.getD .timeout = .timeout := by
      cases script with
      | nil => rfl
      | cons a t => exact hs a (by simp)
    simp [runAttempts, hh, attemptOnce]
  | succ n ih =>
    intro script hs
    have hh : script.head?.getD .timeout = .timeout := by
      cases script with
      | nil => rfl
      | cons a t => exact hs a (by simp)
    have ht : ∀ r ∈ script.tail, r = Response.timeout :=
      fun r hr => hs r (List.mem_of_mem_tail hr)
    simp [runAttempts, hh, attemptOnce, ih script.tail ht, List.replicate_succ]

/-- C3: when the transport times out on every read, the session performs
exactly `retryLimit` additional attempts, with the request bytes unchanged
between attempts, before raising a TransportError; a single corrupted
response followed by a valid one succeeds after exactly one retry. -/
theorem C3_retry_policy (retryLimit : Nat) (request : List Nat) :
    (∀ script, (∀ r ∈ script, r = Response.timeout) →
      execute retryLimit request script =
        (List.replicate (retryLimit + 1) request,
          .error (.transportError .timeout))) ∧
    (∀ c v f e, decode c = .error e → decode v = .ok f → 1 ≤ retryLimit →
      execute retryLimit request [.frameBytes c, .frameBytes v] =
        ([request, request], .ok f)) := by
  constructor
  · intro script hs
    simpa [execute] using runAttempts_all_timeout request retryLimit script hs
  · intro c v f e hc hv hr
    obtain ⟨n, rfl⟩ : ∃ n, retryLimit = n + 1 := ⟨retryLimit - 1, by omega⟩
    have h1 : attemptOnce (Response.frameBytes c) = .error .corruption := by
      simp [attemptOnce, hc]
    have h2 : attemptOnce (Response.frameBytes v) = .ok f := by
      simp [attemptOnce, hv]
    have h3 : runAttempts request n [Response.frameBytes v] = ([request], .ok f) :=
      runAttempts_ok request n [Response.frameBytes v] f (by simpa using h2)
    simp [execute, runAttempts, h1, h3]

theorem C3_retry_policy_witness :
    execute 2 [1] [] = (List.replicate 3 [1], .error (.transportError .timeout)) :=
  (C3_retry_policy 2 [1]).1 [] (by simp)

theorem readPaged_spec (device : Nat → Nat) :
    ∀ (count addr : Nat),
      (readPaged device addr count).1.length =
          (count + frameCapacity - 1) / frameCapacity ∧
        (readPaged device addr count).2.map Prod.fst = List.range' addr count := by
  intro count
  induction count using Nat.strong_induction_on with
  | _ count ih =>
    intro addr
    by_cases h : count = 0
    · subst h
      rw [readPaged]
      simp [frameCapacity]
    · have hlt : count - min count frameCapacity < count := by
        unfold frameCapacity
        omega
      obtain ⟨ih1, ih2⟩ := ih _ hlt (addr + min count frameCapacity)
      rw [readPaged, if_neg h]
      constructor
      · simp only [List.length_cons, ih1]
        unfold frameCapacity at *
        omega
      · simp only [List.map_append, List.map_map]
        have hm : (List.range (min count frameCapacity)).map
            (Prod.fst ∘ fun i => (addr + i, device (addr + i))) =
            List.range' addr (min count frameCapacity) := by
          rw [List.range'_eq_map_range]
          rfl
        rw [hm, ih2]
        have happ := List.range'_append addr (min count frameCapacity)
          (count - min count frameCapacity) 1
        simp only [one_mul] at happ
        rw [happ]
        congr 1
        unfold frameCapacity at *
        omega

/-- C1: `read_flash` and `read_port_registers` issue exactly
ceil(count / capacity) request frames and return exactly `count` dump entries
in ascending address order, never silently truncating when the count exceeds
a single frame's capacity. -/
theorem C1_paginated_reads (device : Nat → Nat) (address count port : Nat) :
    ((read_flash device address count).1.length =
        (count + frameCapacity - 1) / frameCapacity ∧
      (read_flash device address count).2.map Prod.fst =
        List.range' address count) ∧
    ((read_port_registers device port).1.length =
        (portRegisterCount + frameCapacity - 1) / frameCapacity ∧
      (read_port_registers device port).2.map Prod.fst =
        List.range' (port * 4096) portRegisterCount) :=
  ⟨readPaged_spec device count address,
    readPaged_spec device portRegisterCount (port * 4096)⟩

theorem foldl_add_counters (cs : List PortErrorCounters) :
    ∀ a, cs.foldl (fun a c => a + c.bad_tlp + c.bad_dllp + c.flit_error) a =
      a + (cs.map (fun c => c.bad_tlp + c.bad_dllp + c.flit_error)).sum := by
  induction cs with
  | nil =>
    intro a
    simp
  | cons c t ih =>
    intro a
    simp only [List.foldl_cons, List.map_cons, List.sum_cons, ih]
    omega

theorem decodeCounterEntries_mem :
    ∀ (n : Nat) (bs : List Nat), bs.length ≤ n →
      ∀ cs, decodeCounterEntries bs = some cs →
      ∀ c ∈ cs, c.has_errors = decide (0 < c.bad_tlp + c.bad_dllp + c.flit_error) := by
  intro n
  induction n with
  | zero =>
    intro bs hb cs h c hc
    rcases bs with _ | ⟨x, xs⟩
    · simp only [decodeCounterEntries, Option.some.injEq] at h
      subst h
      simp at hc
    · simp at hb
  | succ n ih =>
    intro bs hb cs h c hc
    rcases bs with _ | ⟨p, _ | ⟨t, _ | ⟨d, _ | ⟨f, rest⟩⟩⟩⟩
    · simp only [decodeCounterEntries, Option.some.injEq] at h
      subst h
      simp at hc
    · simp [decodeCounterEntries] at h
    · simp [decodeCounterEntries] at h
    · simp [decodeCounterEntries] at h
    · simp only [decodeCounterEntries, Option.map_eq_some'] at h
      obtain ⟨cs', hcs', rfl⟩ := h
      rcases List.mem_cons.mp hc with hc1 | hc2
      · subst hc1
        rfl
      · refine ih rest ?_ cs' hcs' c hc2
        simp only [List.length_cons] at hb
        omega

/-- C4: for every decoded ErrorCounterReport, `total_errors` equals the sum
of the three counter fields over all per-port entries, and each entry's
`has_errors` flag is true iff at least one of its three counters is
nonzero. -/
theorem C4_error_counter_aggregates (payload : List Nat) (r : ErrorCounterReport)
    (h : decode_error_counters payload = .ok r) :
    r.total_errors =
        (r.counters.map (fun c => c.bad_tlp + c.bad_dllp + c.flit_error)).sum ∧
      ∀ c ∈ r.counters,
        (c.has_errors = true ↔
          (c.bad_tlp ≠ 0 ∨ c.bad_dllp ≠ 0 ∨ c.flit_error ≠ 0)) := by
  unfold decode_error_counters at h
  cases hde : decodeCounterEntries payload with
  | none =>
    rw [hde] at h
    simp at h
  | some cs =>
    rw [hde] at h
    simp only [Except.ok.injEq] at h
    subst h
    constructor
    · rw [show (ErrorCounterReport.mk cs
          (cs.foldl (fun a c => a + c.bad_tlp + c.bad_dllp + c.flit_error) 0)).total_errors =
          cs.foldl (fun a c => a + c.bad_tlp + c.bad_dllp + c.flit_error) 0 from rfl,
        foldl_add_counters]
      simp
    · intro c hc
      have hh := decodeCounterEntries_mem payload.length payload (le_refl _) cs hde c hc
      rw [hh]
      simp only [decide_eq_true_eq]
      omega

theorem C4_error_counter_aggregates_witness :
    ((⟨[⟨1, 2, 0, 0, true⟩, ⟨2, 0, 0, 0, false⟩], 2⟩ : ErrorCounterReport).total_errors =
        ((⟨[⟨1, 2, 0, 0, true⟩, ⟨2, 0, 0, 0, false⟩], 2⟩ :
            ErrorCounterReport).counters.map
          (fun c => c.bad_tlp + c.bad_dllp + c.flit_error)).sum) ∧
      ∀ c ∈ (⟨[⟨1, 2, 0, 0, true⟩, ⟨2, 0, 0, 0, false⟩], 2⟩ :
          ErrorCounterReport).counters,
        (c.has_errors = true ↔
          (c.bad_tlp ≠ 0 ∨ c.bad_dllp ≠ 0 ∨ c.flit_error ≠ 0)) :=
  C4_error_counter_aggregates [1, 2, 0, 0, 2, 0, 0, 0]
    ⟨[⟨1, 2, 0, 0, true⟩, ⟨2, 0, 0, 0, false⟩], 2⟩ rfl

theorem foldl_and_is_ok (ds : List BistDeviceResult) :
    ∀ a, ds.foldl (fun a d => a && d.is_ok) a = (a && ds.all (fun d => d.is_ok)) := by
  induction ds with
  | nil =>
    intro a
    simp
  | cons d t ih =>
    intro a
    simp [ih, Bool.and_assoc]

/-- C5: for every decoded BistReport, `all_passed` is true iff every
per-device entry's pass flag is true; a single failing device among passing
devices makes `all_passed` false. -/
theorem C5_bist_all_passed (payload : List Nat) (r : BistReport)
    (h : decode_bist payload = .ok r) :
    (r.all_passed = true ↔ ∀ d ∈ r.devices, d.is_ok = true) ∧
      (∀ d ∈ r.devices, d.is_ok = false → r.all_passed = false) := by
  unfold decode_bist at h
  cases hde : decodeBistEntries payload with
  | none =>
    rw [hde] at h
    simp at h
  | some ds =>
    rw [hde] at h
    simp only [Except.ok.injEq] at h
    subst h
    have hall : (ds.foldl (fun a d => a && d.is_ok) true) = ds.all (fun d => d.is_ok) := by
      rw [foldl_and_is_ok]
      simp
    constructor
    · rw [show (BistReport.mk ds (ds.foldl (fun a d => a && d.is_ok) true)).all_passed =
          ds.foldl (fun a d => a && d.is_ok) true from rfl, hall]
      exact List.all_eq_true
    · intro d hd hfail
      rw [show (BistReport.mk ds (ds.foldl (fun a d => a && d.is_ok) true)).all_passed =
          ds.foldl (fun a d => a && d.is_ok) true from rfl, hall]
      rw [List.all_eq_false]
      exact ⟨d, hd, by simp [hfail]⟩

theorem C5_bist_all_passed_witness :
    ((⟨[⟨"i2c-80", 1, 80, true⟩, ⟨"i2c-81", 1, 81, true⟩, ⟨"i2c-82", 2, 82, true⟩,
          ⟨"i2c-83", 2, 83, false⟩], false⟩ : BistReport).all_passed = true ↔
        ∀ d ∈ (⟨[⟨"i2c-80", 1, 80, true⟩, ⟨"i2c-81", 1, 81, true⟩,
            ⟨"i2c-82", 2, 82, true⟩, ⟨"i2c-83", 2, 83, false⟩], false⟩ :
            BistReport).devices, d.is_ok = true) ∧
      (∀ d ∈ (⟨[⟨"i2c-80", 1, 80, true⟩, ⟨"i2c-81", 1, 81, true⟩,
          ⟨"i2c-82", 2, 82, true⟩, ⟨"i2c-83", 2, 83, false⟩], false⟩ :
          BistReport).devices, d.is_ok = false →
        (⟨[⟨"i2c-80", 1, 80, true⟩, ⟨"i2c-81", 1, 81, true⟩,
            ⟨"i2c-82", 2, 82, true⟩, ⟨"i2c-83", 2, 83, false⟩], false⟩ :
          BistReport).all_passed = false) :=
  C5_bist_all_passed [1, 80, 1, 1, 81, 1, 2, 82, 1, 2, 83, 0]
    ⟨[⟨"i2c-80", 1, 80, true⟩, ⟨"i2c-81", 1, 81, true⟩, ⟨"i2c-82", 2, 82, true⟩,
      ⟨"i2c-83", 2, 83, false⟩], false⟩ rfl

/-- C6: every caller-supplied parameter outside its accepted domain (station
not in the fixed station set, connector id out of range, invalid I2C channel
selector, zero or negative I2C byte count) fails with a ValidationError
before any bytes are written to the transport (zero writes), independently of
the retry limit and of the peer, so the failure is never retried. -/
theorem C6_validation_before_io (retryLimit : Nat) (script : List Response) :
    (∀ n disable, n ∉ validStations →
      set_flit_mode (.station n) disable retryLimit script =
        ([], .error (.validationError "invalid station id"))) ∧
    (∀ id, connectorCount ≤ id →
      reset_connector id retryLimit script =
        ([], .error (.validationError "connector id out of range"))) ∧
    (∀ a c ch rb reg, ch ≠ 'a' → ch ≠ 'b' →
      i2c_read a c ch rb reg retryLimit script =
        ([], .error (.validationError "invalid channel selector"))) ∧
    (∀ a c ch rb reg, (ch = 'a' ∨ ch = 'b') → rb ≤ 0 →
      i2c_read a c ch rb reg retryLimit script =
        ([], .error (.validationError "byte count must be positive"))) := by
  refine ⟨?_, ?_, ?_, ?_⟩
  · intro n disable hn
    simp [set_flit_mode, hn]
  · intro id hid
    simp [reset_connector, Nat.not_lt.mpr hid]
  · intro a c ch rb reg h1 h2
    simp [i2c_read, h1, h2]
  · intro a c ch rb reg hch hrb
    rcases hch with rfl | rfl
    · simp [i2c_read, hrb]
    · simp [i2c_read, hrb]

theorem C6_validation_before_io_witness :
    set_flit_mode (.station 3) false 2 [] =
      ([], .error (.validationError "invalid station id")) :=
  (C6_validation_before_io 2 []).1 3 false (by decide)

/-- C7: for every modelled status decoder, a payload shorter than the
operation's minimum expected length fails with a DecodeError (an error kind
distinct from the transport-level errors), never with an out-of-range access
or silently zeroed fields. -/
theorem C7_short_payload_decode_error :
    (∀ payload, payload.length < versionPayloadLen →
      decode_version payload = .error (.decodeError "version payload too short")) ∧
    (∀ payload, payload.length < portStatusPayloadLen →
      decode_port_status payload =
        .error (.decodeError "port status payload length mismatch")) ∧
    (∀ payload, payload ≠ [] → payload.length < 4 →
      decode_error_counters payload =
        .error (.decodeError "error counter payload truncated")) ∧
    (∀ payload, payload ≠ [] → payload.length < 3 →
      decode_bist payload = .error (.decodeError "bist payload truncated")) ∧
    (decode_i2c_result [] = .error (.decodeError "i2c payload empty")) ∧
    (∀ n rest, rest.length < n →
      decode_i2c_result (n :: rest) = .error (.decodeError "i2c payload too short")) ∧
    (∀ msg kind, Atlas3Error.decodeError msg ≠ .transportError kind) := by
  refine ⟨?_, ?_, ?_, ?_, rfl, ?_, ?_⟩
  · intro payload h
    simp [decode_version, h]
  · intro payload h
    have hne : payload.length ≠ portStatusPayloadLen := by omega
    simp [decode_port_status, hne]
  · intro payload hne hlen
    rcases payload with _ | ⟨a, _ | ⟨b, _ | ⟨c, _ | ⟨d, rest⟩⟩⟩⟩
    · exact absurd rfl hne
    · simp [decode_error_counters, decodeCounterEntries]
    · simp [decode_error_counters, decodeCounterEntries]
    · simp [decode_error_counters, decodeCounterEntries]
    · simp only [List.length_cons] at hlen
      omega
  · intro payload hne hlen
    rcases payload with _ | ⟨a, _ | ⟨b, _ | ⟨c, rest⟩⟩⟩
    · exact absurd rfl hne
    · simp [decode_bist, decodeBistEntries]
    · simp [decode_bist, decodeBistEntries]
    · simp only [List.length_cons] at hlen
      omega
  · intro n rest h
    simp [decode_i2c_result, h]
  · intro msg kind h
    exact Atlas3Error.noConfusion h

theorem C7_short_payload_decode_error_witness :
    decode_version [] = .error (.decodeError "version payload too short") :=
  C7_short_payload_decode_error.1 [] (by decide)

/-- C8: raw values outside a declared enumeration range decode to the
Unknown(raw) sentinel variant carrying the raw value, and a full-length port
status payload decodes successfully whatever byte values it holds, so
out-of-range enumerated fields never make decoding fail. -/
theorem C8_unknown_sentinel :
    (∀ raw, raw ∉ [1, 2, 3, 4, 5, 6] → decodeLinkSpeed raw = .unknown raw) ∧
    (∀ raw, raw ∉ [0, 1, 2] → decodeLinkStatus raw = .unknown raw) ∧
    (∀ raw, raw ∉ [1, 2, 3, 4] → decodeOperationMode raw = .unknown raw) ∧
    (∀ payload, payload.length = portStatusPayloadLen →
      ∃ r, decode_port_status payload = .ok r) := by
  refine ⟨?_, ?_, ?_, ?_⟩
  · intro raw h
    simp only [List.mem_cons, List.not_mem_nil, or_false, not_or] at h
    obtain ⟨h1, h2, h3, h4, h5, h6⟩ := h
    simp [decodeLinkSpeed, h1, h2, h3, h4, h5, h6]
  · intro raw h
    simp only [List.mem_cons, List.not_mem_nil, or_false, not_or] at h
    obtain ⟨h1, h2, h3⟩ := h
    simp [decodeLinkStatus, h1, h2, h3]
  · intro raw h
    simp only [List.mem_cons, List.not_mem_nil, or_false, not_or] at h
    obtain ⟨h1, h2, h3, h4⟩ := h
    simp [decodeOperationMode, h1, h2, h3, h4]
  · intro payload h
    unfold decode_port_status
    rw [if_neg (show ¬payload.length ≠ portStatusPayloadLen by omega)]
    exact ⟨_, rfl⟩

theorem C8_unknown_sentinel_witness :
    decodeLinkSpeed 99 = .unknown 99 :=
  C8_unknown_sentinel.1 99 (by decide)

theorem decodePortSlot_linked_iff (pn st sp w : Nat) :
    ((decodePortSlot pn st sp w).is_linked = true ↔
      (decodePortSlot pn st sp w).negotiated_speed.isSome = true) ∧
    ((decodePortSlot pn st sp w).is_linked = false →
      (decodePortSlot pn st sp w).negotiated_speed = none ∧
      (decodePortSlot pn st sp w).negotiated_width = none) := by
  by_cases h1 : st = 1
  · subst h1
    simp [decodePortSlot, Port.is_linked, decodeLinkStatus]
  · by_cases h0 : st = 0
    · subst h0
      simp [decodePortSlot, Port.is_linked, decodeLinkStatus]
    · by_cases h2 : st = 2
      · subst h2
        simp [decodePortSlot, Port.is_linked, decodeLinkStatus, h0, h1]
      · simp [decodePortSlot, Port.is_linked, decodeLinkStatus, h0, h1, h2]

/-- C10: every Port produced by decoding a PortStatusReport has
`negotiated_speed` and `negotiated_width` absent (not zero) when the slot is
unlinked, and `is_linked` is true iff `negotiated_speed` is present, so the
speed of a linked port is always accessible. -/
theorem C10_unlinked_ports (payload : List Nat) (r : PortStatusReport)
    (h : decode_port_status payload = .ok r) :
    ∀ p ∈ r.upstream_ports ++ r.ext_mcio_ports ++ r.int_mcio_ports ++ r.straddle_ports,
      (p.is_linked = true ↔ p.negotiated_speed.isSome = true) ∧
      (p.is_linked = false →
        p.negotiated_speed = none ∧ p.negotiated_width = none) := by
  unfold decode_port_status at h
  by_cases hl : payload.length ≠ portStatusPayloadLen
  · simp [hl] at h
  · rw [if_neg hl] at h
    simp only [Except.ok.injEq] at h
    subst h
    intro p hp
    have hp' : p ∈ (List.range 11).map (fun i =>
        decodePortSlot (payload.getD (1 + 4 * i) 0) (payload.getD (2 + 4 * i) 0)
          (payload.getD (3 + 4 * i) 0) (payload.getD (4 + 4 * i) 0)) := by
      simp only [List.mem_append] at hp
      rcases hp with ((h1 | h2) | h3) | h4
      · exact List.mem_of_mem_take h1
      · exact List.mem_of_mem_drop (List.mem_of_mem_take h2)
      · exact List.mem_of_mem_drop (List.mem_of_mem_take h3)
      · exact List.mem_of_mem_drop h4
    obtain ⟨i, _, rfl⟩ := List.mem_map.mp hp'
    exact decodePortSlot_linked_iff _ _ _ _

theorem C10_unlinked_ports_witness :
    ((⟨0, .idle, none, none⟩ : Port).is_linked = true ↔
      (⟨0, .idle, none, none⟩ : Port).negotiated_speed.isSome = true) ∧
    ((⟨0, .idle, none, none⟩ : Port).is_linked = false →
      (⟨0, .idle, none, none⟩ : Port).negotiated_speed = none ∧
      (⟨0, .idle, none, none⟩ : Port).negotiated_width = none) :=
  C10_unlinked_ports (List.replicate 45 0)
    ⟨0, [⟨0, .idle, none, none⟩],
      [⟨0, .idle, none, none⟩, ⟨0, .idle, none, none⟩, ⟨0, .idle, none, none⟩,
        ⟨0, .idle, none, none⟩],
      [⟨0, .idle, none, none⟩, ⟨0, .idle, none, none⟩, ⟨0, .idle, none, none⟩,
        ⟨0, .idle, none, none⟩],
      [⟨0, .idle, none, none⟩, ⟨0, .idle, none, none⟩]⟩ rfl
    ⟨0, .idle, none, none⟩ (by decide)

end Atlas3
